import Mathlib

/-!
Shallow embedding of the Pacbot-2 game core (src/server/game/game_helpers.go
and src/server/game/ghost.go) together with proofs about the frozen claims.

Coordinates are Go `int8` values, modelled as `Int` with explicit wrapping
(`wrap8`) applied exactly where Go performs `int8` arithmetic.  Bit grids are
Go `uint32` words, modelled as `Nat` with 32-bit masking applied where Go
truncates.  Mutexes and goroutine plumbing are dropped: every embedded
function is a pure state transformer.
-/

namespace Pacbot

/-- Two's-complement wrap of an `Int` into the `int8` range `[-128, 127]`. -/
def wrap8 (x : Int) : Int := (x + 128) % 256 - 128

/-- Modelled from the spec: the direction enumeration
`{up, down, left, right}` (the location module is not among the provided
sources); numbered in the spec's listing order. -/
def up : Nat := 0

def down : Nat := 1

def left : Nat := 2

def right : Nat := 3

/-- Modelled from the spec: row delta of one step in a direction. -/
def dRow : Nat → Int
  | 0 => -1
  | 1 => 1
  | _ => 0

/-- Modelled from the spec: column delta of one step in a direction. -/
def dCol : Nat → Int
  | 2 => -1
  | 3 => 1
  | _ => 0

/-- Modelled from the spec: direction reversal (up and down swap, left and
right swap). -/
def reverseOf : Nat → Nat
  | 0 => 1
  | 1 => 0
  | 2 => 3
  | 3 => 2
  | d => d

/-- Modelled from the spec: a location value
`{row: int8, col: int8, direction}`. -/
structure Loc where
  row : Int
  col : Int
  dir : Nat
deriving DecidableEq, Repr

/-- Modelled from the spec: read the coordinate pair of a location. -/
def Loc.getCoords (l : Loc) : Int × Int := (l.row, l.col)

/-- Modelled from the spec: the neighboring cell one step away in a given
direction (`int8` arithmetic). -/
def Loc.getNeighborCoords (l : Loc) (d : Nat) : Int × Int :=
  (wrap8 (l.row + dRow d), wrap8 (l.col + dCol d))

/-- Modelled from the spec: overwrite the stored direction. -/
def Loc.updateDir (l : Loc) (d : Nat) : Loc := { l with dir := d }

/-- Modelled from the spec: overwrite the stored cell. -/
def Loc.moveToCoords (l : Loc) (r c : Int) : Loc := { l with row := r, col := c }

/-- Modelled from the spec: collision is exact cell equality (direction is
ignored). -/
def Loc.collidesWith (a b : Loc) : Bool := a.row == b.row && a.col == b.col

/-- Modelled from the spec: the direction that would reverse this location's
heading. -/
def Loc.getReversedDir (l : Loc) : Nat := reverseOf l.dir

/-- Modelled from the spec: reverse the stored heading in place. -/
def Loc.reverseDir (l : Loc) : Loc := { l with dir := reverseOf l.dir }

/-- Modelled from the spec: `advanceFrom(other)` copies the other location's
cell and applies its own stored direction to compute the next cell. -/
def Loc.advanceFrom (a b : Loc) : Loc :=
  { a with row := wrap8 (b.row + dRow a.dir), col := wrap8 (b.col + dCol a.dir) }

/-- Modelled from the spec: project `n` cells ahead along the current
direction (`int8` arithmetic). -/
def Loc.getAheadCoords (l : Loc) (n : Int) : Int × Int :=
  (wrap8 (l.row + n * dRow l.dir), wrap8 (l.col + n * dCol l.dir))

/-- Number of maze rows (constant defined outside the provided sources; the
concrete value does not decide any claim). -/
def mazeRows : Int := 31

/-- Number of maze columns. -/
def mazeCols : Int := 28

/-- Modelled from the spec: the designated empty / off-board sentinel
location. -/
def emptyLoc : Loc := ⟨32, 32, 0⟩

/-- Ghost color constants from the source (`red = 0`, …). -/
def red : Nat := 0

def pink : Nat := 1

def cyan : Nat := 2

def orange : Nat := 3

/-- Modelled from the spec: the fixed ghost-house spawn cell of each
identity (the concrete cells lie in the ghost-house region; red's differs
from pink's). -/
def ghostSpawnLocs : Nat → Loc
  | 0 => ⟨11, 13, 0⟩
  | 1 => ⟨13, 13, 0⟩
  | 2 => ⟨14, 11, 0⟩
  | 3 => ⟨14, 15, 0⟩
  | _ => emptyLoc

/-- Modelled from the spec: the exact ghost-house exit cell (row). -/
def ghostHouseExitRow : Int := 12

/-- Modelled from the spec: the exact ghost-house exit cell (column). -/
def ghostHouseExitCol : Int := 13

/-- Modelled from the spec: the fright duration constant. -/
def ghostFrightCycles : Nat := 40

/-- Modelled from the spec: points for a normal pellet. -/
def pelletPoints : Nat := 10

/-- Modelled from the spec: points for a super pellet. -/
def superPelletPoints : Nat := 50

/-- Modelled from the spec: first fruit-spawn pellet threshold. -/
def fruitThreshold1 : Nat := 170

/-- Modelled from the spec: second fruit-spawn pellet threshold. -/
def fruitThreshold2 : Nat := 70

/-- Modelled from the spec: the game modes. -/
inductive Mode where
  | chase : Mode
  | scatter : Mode
  | paused : Mode
deriving DecidableEq, Repr

/-- Ghost state (ghost.go): locations, identity, timers and flags. -/
structure Ghost where
  loc : Loc
  nextLoc : Loc
  scatterTarget : Loc
  color : Nat
  trappedCycles : Nat
  frightCycles : Nat
  spawning : Bool
  eaten : Bool
deriving DecidableEq, Repr

/-- Default ghost used with `List.getD` (Go indexes a fixed array). -/
def dGhost : Ghost := ⟨emptyLoc, emptyLoc, emptyLoc, 0, 0, 0, false, false⟩

/-- The aggregated game state (fields the embedded functions touch). -/
structure GameState where
  walls : List Nat
  pellets : List Nat
  numPellets : Nat
  score : Nat
  pacmanLoc : Loc
  ghosts : List Ghost
  fruitSpawned1 : Bool
  fruitSpawned2 : Bool
  mode : Mode
  lastUnpausedMode : Mode
deriving DecidableEq, Repr

/-- Row access into a bit grid (Go indexes a fixed-size array; the list is
read with default 0). -/
def gridRow (l : List Nat) (i : Nat) : Nat := l.getD i 0

/-- getBit (game_helpers.go): read one bit of a grid word. -/
def getBit (num : Nat) (bitIdx : Int) : Bool := num.testBit bitIdx.toNat

/-- modifyBit (game_helpers.go): set or clear one bit of a `uint32` word. -/
def modifyBit (num : Nat) (bitIdx : Int) (bitVal : Bool) : Nat :=
  if bitVal then (num ||| (1 <<< bitIdx.toNat)) &&& (2 ^ 32 - 1)
  else num &&& ((2 ^ 32 - 1) ^^^ (1 <<< bitIdx.toNat))

/-- inBounds (game_helpers.go). -/
def inBounds (row col : Int) : Bool :=
  decide ((0 ≤ row ∧ row < mazeRows) ∧ (0 ≤ col ∧ col < mazeCols))

/-- pelletAt (game_helpers.go). -/
def pelletAt (gs : GameState) (row col : Int) : Bool :=
  if !inBounds row col then false
  else getBit (gridRow gs.pellets row.toNat) col

/-- wallAt (game_helpers.go). -/
def wallAt (gs : GameState) (row col : Int) : Bool :=
  if !inBounds row col then true
  else getBit (gridRow gs.walls row.toNat) col

/-- ghostSpawnAt (game_helpers.go); the state receiver is unused beyond the
bounds check, matching the source. -/
def ghostSpawnAt (_gs : GameState) (row col : Int) : Bool :=
  if !inBounds row col then false
  else decide ((13 ≤ row ∧ row ≤ 14) ∧ (11 ≤ col ∧ col ≤ 15))

/-- distSq (game_helpers.go): the coordinate differences are computed in
`int8` arithmetic (wrapping) and then widened to `int`. -/
def distSq (row1 col1 row2 col2 : Int) : Int :=
  let dx := wrap8 (row2 - row1)
  let dy := wrap8 (col2 - col1)
  dx * dx + dy * dy

/-- The per-ghost body of frightenGhosts (game_helpers.go): set the fright
cycles and trap the ghost for one cycle unless already trapped. -/
def frightenGhost (g : Ghost) : Ghost :=
  { g with frightCycles := ghostFrightCycles,
           trappedCycles := if decide (0 < g.trappedCycles) then g.trappedCycles else 1 }

/-- frightenGhosts (game_helpers.go): apply `frightenGhost` to every
ghost. -/
def frightenGhosts (gs : GameState) : GameState :=
  { gs with ghosts := gs.ghosts.map frightenGhost }

/-- incrementScore — modelled from the spec: the score accumulator (a
`uint16` guarded by its own lock) increased by the given points. -/
def incrementScore (gs : GameState) (points : Nat) : GameState :=
  { gs with score := (gs.score + points) % 65536 }

/-- The super-pellet test inlined in collectPellet (game_helpers.go line
103). -/
def superPelletAt (row col : Int) : Bool :=
  ((row == 3) || (row == 23)) && ((col == 1) || (col == 26))

/-- collectPellet (game_helpers.go): no-op when no pellet is present;
otherwise frighten on a super pellet, award points, clear the bit and
decrement the (uint16) pellet counter.  Returns the remaining count and the
new state. -/
def collectPellet (gs : GameState) (row col : Int) : Nat × GameState :=
  if !pelletAt gs row col then (gs.numPellets, gs)
  else
    let superPellet := superPelletAt row col
    let gs1 := if superPellet then frightenGhosts gs else gs
    let gs2 := if superPellet then incrementScore gs1 superPelletPoints
               else incrementScore gs1 pelletPoints
    let newRow := modifyBit (gridRow gs2.pellets row.toNat) col false
    let gs3 := { gs2 with
                 pellets := gs2.pellets.set row.toNat newRow,
                 numPellets := if gs2.numPellets = 0 then 65535 else gs2.numPellets - 1 }
    (gs3.numPellets, gs3)

/-- respawn (ghost.go): mark eaten and spawning, park the current location
at the empty sentinel, and send the next location to the ghost's spawn cell
(pink's spawn cell in the case of red). -/
def respawn (g : Ghost) : Ghost :=
  { g with eaten := true, spawning := true, loc := emptyLoc,
           nextLoc := if g.color == red then ghostSpawnLocs pink else ghostSpawnLocs g.color }

/-- checkCollisions (game_helpers.go): every ghost sharing Pacman's cell
that is not already eaten respawns if frightened (a non-frightened collision
only reports "Pacman caught" and changes no state). -/
def checkCollisions (gs : GameState) : GameState :=
  { gs with ghosts := gs.ghosts.map (fun g =>
      if gs.pacmanLoc.collidesWith g.loc then
        if g.eaten then g
        else if decide (0 < g.frightCycles) then respawn g
        else g
      else g) }

/-- movePacmanDir (game_helpers.go): update heading, resolve collisions at
the pre-move cell, stop at a wall, otherwise move, collect a pellet and run
the fruit-threshold checks. -/
def movePacmanDir (gs : GameState) (dir : Nat) : GameState :=
  let nb := gs.pacmanLoc.getNeighborCoords dir
  let gs1 := { gs with pacmanLoc := gs.pacmanLoc.updateDir dir }
  let gs2 := checkCollisions gs1
  if wallAt gs2 nb.1 nb.2 then gs2
  else
    let gs3 := { gs2 with pacmanLoc := gs2.pacmanLoc.moveToCoords nb.1 nb.2 }
    let res := collectPellet gs3 nb.1 nb.2
    let gs4 := res.2
    if (res.1 == fruitThreshold1) && !gs4.fruitSpawned1 then { gs4 with fruitSpawned1 := true }
    else if (res.1 == fruitThreshold2) && !gs4.fruitSpawned2 then { gs4 with fruitSpawned2 := true }
    else gs4

/-- getChaseTargetRed (game_helpers.go). -/
def getChaseTargetRed (gs : GameState) : Int × Int := gs.pacmanLoc.getCoords

/-- getChaseTargetPink (game_helpers.go). -/
def getChaseTargetPink (gs : GameState) : Int × Int := gs.pacmanLoc.getAheadCoords 4

/-- getChaseTargetCyan (game_helpers.go): red's cell reflected through the
pivot two cells ahead of Pacman (`int8` arithmetic). -/
def getChaseTargetCyan (gs : GameState) : Int × Int :=
  let pivot := gs.pacmanLoc.getAheadCoords 2
  let redLoc := (gs.ghosts.getD red dGhost).loc.getCoords
  (wrap8 (2 * pivot.1 - redLoc.1), wrap8 (2 * pivot.2 - redLoc.2))

/-- getChaseTargetOrange (game_helpers.go): Pacman's cell when the squared
distance is at least 64, else orange's scatter target. -/
def getChaseTargetOrange (gs : GameState) : Int × Int :=
  let p := gs.pacmanLoc.getCoords
  let o := (gs.ghosts.getD orange dGhost).loc.getCoords
  if decide (64 ≤ distSq o.1 o.2 p.1 p.2) then p
  else (gs.ghosts.getD orange dGhost).scatterTarget.getCoords

/-- The coast step of plan (ghost.go): `nextLoc.advanceFrom(loc)`. -/
def planCoast (g : Ghost) : Loc := g.nextLoc.advanceFrom g.loc

/-- The effective mode used by plan: `lastUnpausedMode` substitutes for
`paused`. -/
def effectiveMode (gs : GameState) : Mode :=
  if gs.mode == Mode.paused then gs.lastUnpausedMode else gs.mode

/-- The target selection of plan (ghost.go): spawning ghosts aim for red's
spawn cell, otherwise the mode decides; the target variables default to
`(0, 0)` exactly as Go's zero-valued locals do. -/
def planTarget (gs : GameState) (g : Ghost) : Int × Int :=
  if g.spawning && !(g.loc.collidesWith (ghostSpawnLocs red)) &&
      !((planCoast g).collidesWith (ghostSpawnLocs red)) then
    ((ghostSpawnLocs red).row, (ghostSpawnLocs red).col)
  else if effectiveMode gs == Mode.chase then
    (if g.color == red then getChaseTargetRed gs
     else if g.color == pink then getChaseTargetPink gs
     else if g.color == cyan then getChaseTargetCyan gs
     else if g.color == orange then getChaseTargetOrange gs
     else (0, 0))
  else if effectiveMode gs == Mode.scatter then g.scatterTarget.getCoords
  else (0, 0)

/-- The candidate-validity test of plan (ghost.go): not a wall, relaxed for
spawning ghosts (ghost house or the exit cell), and the reversing direction
is always struck out last. -/
def planMoveValid (gs : GameState) (g : Ghost) (d : Nat) : Bool :=
  let nb := (planCoast g).getNeighborCoords d
  let v1 := !wallAt gs nb.1 nb.2
  let v2 := if g.spawning then v1 || ghostSpawnAt gs nb.1 nb.2 else v1
  let v3 := if g.spawning && (nb.1 == ghostHouseExitRow) && (nb.2 == ghostHouseExitCol)
            then true else v2
  if d == (planCoast g).getReversedDir then false else v3

/-- The squared distance from a candidate move to the target (ghost.go). -/
def planMoveDistSq (gs : GameState) (g : Ghost) (d : Nat) : Int :=
  let nb := (planCoast g).getNeighborCoords d
  distSq nb.1 nb.2 (planTarget gs g).1 (planTarget gs g).2

/-- `numValidMoves` of plan (ghost.go). -/
def planNumValid (gs : GameState) (g : Ghost) : Nat :=
  (List.range 4).countP (planMoveValid gs g)

/-- The random-fright selection loop of plan (ghost.go): walk the direction
enumeration, counting valid moves, and stop at the drawn index; `none` when
the loop falls through. -/
def randomSelectAux (valid : Nat → Bool) (randomNum : Nat) :
    List Nat → Nat → Option Nat
  | [], _ => none
  | d :: ds, count =>
    if valid d then
      if count == randomNum then some d
      else randomSelectAux valid randomNum ds (count + 1)
    else randomSelectAux valid randomNum ds count

/-- The greedy selection loop of plan (ghost.go): running best direction and
best distance, strict improvement only. -/
def greedyAux (valid : Nat → Bool) (dist : Nat → Int) :
    List Nat → Nat → Int → Nat
  | [], bestDir, _ => bestDir
  | d :: ds, bestDir, bestDist =>
    if valid d && decide (dist d < bestDist) then greedyAux valid dist ds d (dist d)
    else greedyAux valid dist ds bestDir bestDist

/-- The full greedy choice of plan (ghost.go): best direction initialised to
`up`, best distance to `0xffffffff`. -/
def greedyChoice (valid : Nat → Bool) (dist : Nat → Int) : Nat :=
  greedyAux valid dist (List.range 4) up 4294967295

/-- plan (ghost.go): the per-ghost planning step.  `randomNum` stands for
the value drawn from the injected random source by `rng.Intn(numValidMoves)`
in the fright branch (so it satisfies `randomNum < planNumValid` whenever
that branch runs). -/
def plan (gs : GameState) (g : Ghost) (randomNum : Nat) : Ghost :=
  if g.loc.collidesWith emptyLoc then g
  else
    let next1 := planCoast g
    if decide (0 < g.trappedCycles) then
      { g with nextLoc := next1.reverseDir, trappedCycles := g.trappedCycles - 1 }
    else if planNumValid gs g == 0 then { g with nextLoc := next1 }
    else if decide (1 < g.frightCycles) then
      match randomSelectAux (planMoveValid gs g) randomNum (List.range 4) 0 with
      | some d => { g with nextLoc := next1.updateDir d }
      | none =>
        { g with nextLoc :=
            next1.updateDir (greedyChoice (planMoveValid gs g) (planMoveDistSq gs g)) }
    else
      { g with nextLoc :=
          next1.updateDir (greedyChoice (planMoveValid gs g) (planMoveDistSq gs g)) }

/-! ## Helper lemmas -/

lemma gridRow_set_self (l : List Nat) (i x : Nat) (hi : i < l.length) :
    gridRow (l.set i x) i = x := by
  simp [gridRow, List.getD_eq_getElem?_getD, List.getElem?_set_self hi]

lemma gridRow_set_ne (l : List Nat) (i j x : Nat) (h : i ≠ j) :
    gridRow (l.set i x) j = gridRow l j := by
  simp [gridRow, List.getD_eq_getElem?_getD, List.getElem?_set_ne h]

lemma gridRow_eq_zero (l : List Nat) {i : Nat} (h : l.length ≤ i) :
    gridRow l i = 0 := List.getD_eq_default l 0 h

/-- Bits of the 32-bit all-ones mask. -/
lemma testBit_mask32 (j : Nat) : Nat.testBit 4294967295 j = decide (j < 32) := by
  have h := Nat.testBit_two_pow_sub_one 32 j
  norm_num at h
  exact h

lemma testBit_clear_self (n i : Nat) (hi : i < 32) :
    (n &&& (4294967295 ^^^ (1 <<< i))).testBit i = false := by
  simp [Nat.testBit_and, Nat.testBit_xor, Nat.shiftLeft_eq,
        Nat.testBit_two_pow, testBit_mask32, hi]

lemma testBit_clear_other (n i j : Nat) (hij : i ≠ j) (hj : j < 32) :
    (n &&& (4294967295 ^^^ (1 <<< i))).testBit j = n.testBit j := by
  simp [Nat.testBit_and, Nat.testBit_xor, Nat.shiftLeft_eq,
        Nat.testBit_two_pow, testBit_mask32, hij, hj]

lemma pelletAt_true_elim {gs : GameState} {r c : Int} (h : pelletAt gs r c = true) :
    inBounds r c = true ∧ (gridRow gs.pellets r.toNat).testBit c.toNat = true ∧
      r.toNat < gs.pellets.length := by
  by_cases hb : inBounds r c
  · have h2 : getBit (gridRow gs.pellets r.toNat) c = true := by
      unfold pelletAt at h
      simpa [hb] using h
    unfold getBit at h2
    refine ⟨hb, h2, ?_⟩
    by_contra hlen
    push_neg at hlen
    rw [gridRow_eq_zero _ hlen] at h2
    simp at h2
  · unfold pelletAt at h
    simp [hb] at h

lemma inBounds_elim {r c : Int} (h : inBounds r c = true) :
    0 ≤ r ∧ r < 31 ∧ 0 ≤ c ∧ c < 28 := by
  simp [inBounds, mazeRows, mazeCols] at h
  omega

/-- Structural description of a successful collection: ghost frightening on
a super pellet, the awarded points, the cleared grid row and the
(uint16-wrapped) decrement. -/
lemma collectPellet_success_state {gs : GameState} {r c : Int}
    (h : pelletAt gs r c = true) :
    (collectPellet gs r c).2 =
      { gs with
        ghosts := if superPelletAt r c then gs.ghosts.map frightenGhost
          else gs.ghosts,
        score := (gs.score +
          (if superPelletAt r c then superPelletPoints else pelletPoints)) % 65536,
        pellets := gs.pellets.set r.toNat (modifyBit (gridRow gs.pellets r.toNat) c false),
        numPellets := if gs.numPellets = 0 then 65535 else gs.numPellets - 1 } ∧
    (collectPellet gs r c).1 =
      (if gs.numPellets = 0 then 65535 else gs.numPellets - 1) := by
  by_cases hsp : superPelletAt r c <;>
    simp [collectPellet, h, hsp, frightenGhosts, incrementScore]

/-- After a successful collection the pellet bit of the collected cell is
cleared. -/
lemma pelletAt_collect_self {gs : GameState} {r c : Int}
    (h : pelletAt gs r c = true) :
    pelletAt (collectPellet gs r c).2 r c = false := by
  obtain ⟨hb, hbit, hlen⟩ := pelletAt_true_elim h
  obtain ⟨hr0, hr1, hc0, hc1⟩ := inBounds_elim hb
  have hc32 : c.toNat < 32 := by omega
  rw [(collectPellet_success_state h).1]
  unfold pelletAt
  simp [hb, getBit, gridRow_set_self _ _ _ hlen, modifyBit,
        testBit_clear_self _ _ hc32]

/-- With no pellet at the cell, collectPellet returns the current count and
the state unchanged. -/
lemma collectPellet_noop {gs : GameState} {r c : Int}
    (h : pelletAt gs r c = false) :
    collectPellet gs r c = (gs.numPellets, gs) := by
  unfold collectPellet
  simp [h]

lemma modifyBit_false_eq (n : Nat) (c : Int) :
    modifyBit n c false = n &&& (4294967295 ^^^ (1 <<< c.toNat)) := by
  norm_num [modifyBit]

lemma getD_map {α : Type} (l : List α) (f : α → α) (i : Nat) (d : α)
    (hi : i < l.length) : (l.map f).getD i d = f (l.getD i d) := by
  rw [List.getD_eq_getElem?_getD, List.getD_eq_getElem?_getD, List.getElem?_map,
      List.getElem?_eq_getElem hi]
  rfl

/-- Number of set bits among the first `k` bit positions. -/
def popCountBelow (n : Nat) : Nat → Nat
  | 0 => 0
  | k + 1 => popCountBelow n k + (if n.testBit k then 1 else 0)

/-- Population count of one 32-bit grid word. -/
def rowPopCount (n : Nat) : Nat := popCountBelow n 32

/-- Population count of the whole bit grid. -/
def gridPopCount (l : List Nat) : Nat := (l.map rowPopCount).sum

lemma popCountBelow_clear (n i : Nat) (hi : i < 32) (hbit : n.testBit i = true) :
    ∀ k, k ≤ 32 →
      popCountBelow (n &&& (4294967295 ^^^ (1 <<< i))) k + (if i < k then 1 else 0)
        = popCountBelow n k := by
  intro k
  induction k with
  | zero => simp [popCountBelow]
  | succ k ih =>
    intro hk
    have hk32 : k < 32 := hk
    have ihk := ih (by omega)
    have hstep : ∀ m : Nat, popCountBelow m (k + 1) =
        popCountBelow m k + (if m.testBit k then 1 else 0) := fun _ => rfl
    by_cases hik : i = k
    · subst hik
      rw [hstep, hstep, testBit_clear_self n i hi, hbit,
          if_neg Bool.false_ne_true, if_pos rfl, if_pos (by omega)]
      rw [if_neg (by omega)] at ihk
      omega
    · rw [hstep, hstep, testBit_clear_other n i k hik hk32]
      rcases Nat.lt_or_ge i k with hlt | hge
      · rw [if_pos (show i < k + 1 by omega)]
        rw [if_pos hlt] at ihk
        omega
      · rw [if_neg (show ¬i < k + 1 by omega)]
        rw [if_neg (by omega)] at ihk
        omega

lemma rowPopCount_clear (n i : Nat) (hi : i < 32) (hbit : n.testBit i = true) :
    rowPopCount (n &&& (4294967295 ^^^ (1 <<< i))) + 1 = rowPopCount n := by
  have h := popCountBelow_clear n i hi hbit 32 le_rfl
  simpa [rowPopCount, hi] using h

lemma popCountBelow_pos (n i : Nat) (hbit : n.testBit i = true) :
    ∀ k, i < k → 1 ≤ popCountBelow n k := by
  intro k
  induction k with
  | zero => omega
  | succ k ih =>
    intro hk
    by_cases hik : i = k
    · subst hik
      simp [popCountBelow, hbit]
    · have h := ih (by omega)
      simp only [popCountBelow]
      omega

lemma gridPopCount_set (l : List Nat) (i x : Nat) (hi : i < l.length) :
    gridPopCount (l.set i x) + rowPopCount (gridRow l i) =
      gridPopCount l + rowPopCount x := by
  induction l generalizing i with
  | nil => simp at hi
  | cons a t ih =>
    cases i with
    | zero =>
      simp [gridPopCount, gridRow]
      omega
    | succ j =>
      have hj : j < t.length := by simpa using hi
      have h := ih j hj
      simp only [List.set, gridPopCount, gridRow, List.getD_cons_succ,
                 List.map_cons, List.sum_cons] at h ⊢
      omega

lemma gridPopCount_ge_row (l : List Nat) (i : Nat) (hi : i < l.length) :
    rowPopCount (gridRow l i) ≤ gridPopCount l := by
  induction l generalizing i with
  | nil => simp at hi
  | cons a t ih =>
    cases i with
    | zero => simp [gridPopCount, gridRow]
    | succ j =>
      have hj : j < t.length := by simpa using hi
      have h := ih j hj
      simp only [gridPopCount, gridRow, List.getD_cons_succ,
                 List.map_cons, List.sum_cons] at h ⊢
      omega

/-! ## Claim theorems (first batch) -/

/-- C9: every out-of-bounds coordinate pair reports `wallAt = true` and
`pelletAt = false`; every in-bounds cell reports exactly the corresponding
bit of the wall grid and of the pellet grid. -/
theorem wallAt_pelletAt_agree_with_grids (gs : GameState) (r c : Int) :
    ((r < 0 ∨ mazeRows ≤ r ∨ c < 0 ∨ mazeCols ≤ c) →
      wallAt gs r c = true ∧ pelletAt gs r c = false) ∧
    (0 ≤ r → r < mazeRows → 0 ≤ c → c < mazeCols →
      wallAt gs r c = getBit (gridRow gs.walls r.toNat) c ∧
      pelletAt gs r c = getBit (gridRow gs.pellets r.toNat) c) := by
  constructor
  · intro h
    have hib : inBounds r c = false := by
      simp [inBounds, mazeRows, mazeCols] at *
      omega
    simp [wallAt, pelletAt, hib]
  · intro h1 h2 h3 h4
    have hib : inBounds r c = true := by
      simp [inBounds]
      exact ⟨⟨h1, h2⟩, h3, h4⟩
    simp [wallAt, pelletAt, hib]

/-- C3: collectPellet at a pellet-free cell (in or out of bounds) is a
complete no-op returning the current count and leaving the whole state —
counter, score, grid, and every ghost field — unchanged; consequently a
collected cell's pellet is gone and a second call on the same cell is a
no-op. -/
theorem collectPellet_no_pellet_noop (gs : GameState) (r c : Int) :
    (pelletAt gs r c = false → collectPellet gs r c = (gs.numPellets, gs)) ∧
    (pelletAt gs r c = true →
      pelletAt (collectPellet gs r c).2 r c = false ∧
      collectPellet (collectPellet gs r c).2 r c =
        ((collectPellet gs r c).2.numPellets, (collectPellet gs r c).2)) := by
  refine ⟨fun h => collectPellet_noop h, fun h => ?_⟩
  have hafter := pelletAt_collect_self h
  exact ⟨hafter, collectPellet_noop hafter⟩

/-- C5: respawn marks the ghost eaten and spawning, parks its current
location at the empty sentinel, and sets the next location to pink's spawn
cell for the red identity (which differs from red's own spawn cell) and to
the ghost's own spawn cell for every other identity. -/
theorem respawn_spec (g : Ghost) :
    (respawn g).eaten = true ∧ (respawn g).spawning = true ∧
    (respawn g).loc = emptyLoc ∧
    (g.color = red → (respawn g).nextLoc = ghostSpawnLocs pink ∧
      (respawn g).nextLoc ≠ ghostSpawnLocs red) ∧
    (g.color ≠ red → (respawn g).nextLoc = ghostSpawnLocs g.color) := by
  refine ⟨rfl, rfl, rfl, fun h => ?_, fun h => ?_⟩
  · constructor
    · simp [respawn, h]
    · simp [respawn, h, ghostSpawnLocs, pink, red]
  · have hb : (g.color == red) = false := by simpa using h
    simp [respawn, hb]

/-- Witness for C5 at the red identity (`dGhost` has color 0) and at the
orange identity. -/
theorem respawn_spec_witness :
    (respawn dGhost).nextLoc = ghostSpawnLocs pink ∧
    (respawn { dGhost with color := 3 }).nextLoc = ghostSpawnLocs 3 :=
  ⟨((respawn_spec dGhost).2.2.2.1 rfl).1,
   (respawn_spec { dGhost with color := 3 }).2.2.2.2 (by decide)⟩

/-- C6: a trapped ghost (away from the empty sentinel) reverses: its next
location becomes one step ahead of its current cell along the planned
heading with that heading reversed, its trapped counter drops by exactly
one, no other field changes, and no random draw is consumed. -/
theorem plan_trapped_spec (gs : GameState) (g : Ghost)
    (h1 : g.loc.collidesWith emptyLoc = false) (h2 : 0 < g.trappedCycles) :
    ∀ randomNum, plan gs g randomNum =
      { g with
        nextLoc := ⟨wrap8 (g.loc.row + dRow g.nextLoc.dir),
                    wrap8 (g.loc.col + dCol g.nextLoc.dir),
                    reverseOf g.nextLoc.dir⟩,
        trappedCycles := g.trappedCycles - 1 } := by
  intro randomNum
  simp [plan, h1, h2, planCoast, Loc.advanceFrom, Loc.reverseDir]

/-- Sample ghost used by witnesses: on the board and trapped. -/
def gTrap : Ghost := { dGhost with loc := ⟨1, 1, 0⟩, nextLoc := ⟨1, 1, 0⟩, trappedCycles := 2 }

/-- Sample game state used by witnesses: a wall bit at (2,2), a pellet bit
at (3,1). -/
def gsW : GameState :=
  { walls := [0, 0, 4], pellets := [0, 0, 0, 2], numPellets := 1, score := 7,
    pacmanLoc := ⟨1, 1, 3⟩, ghosts := [dGhost], fruitSpawned1 := false,
    fruitSpawned2 := false, mode := Mode.chase, lastUnpausedMode := Mode.chase }

/-- Witness for C6 on a concrete trapped ghost. -/
theorem plan_trapped_spec_witness :
    plan gsW gTrap 0 =
      { gTrap with
        nextLoc := ⟨wrap8 (gTrap.loc.row + dRow gTrap.nextLoc.dir),
                    wrap8 (gTrap.loc.col + dCol gTrap.nextLoc.dir),
                    reverseOf gTrap.nextLoc.dir⟩,
        trappedCycles := gTrap.trappedCycles - 1 } :=
  plan_trapped_spec gsW gTrap (by decide) (by decide) 0

/-- Witness for C9 at one out-of-bounds row, one out-of-bounds column and
one in-bounds cell. -/
theorem wallAt_pelletAt_agree_with_grids_witness :
    (wallAt gsW (-1) 0 = true ∧ pelletAt gsW (-1) 0 = false) ∧
    (wallAt gsW 31 5 = true ∧ pelletAt gsW 31 5 = false) ∧
    wallAt gsW 2 2 = getBit (gridRow gsW.walls (Int.toNat 2)) 2 :=
  ⟨(wallAt_pelletAt_agree_with_grids gsW (-1) 0).1 (by decide),
   (wallAt_pelletAt_agree_with_grids gsW 31 5).1 (by decide),
   ((wallAt_pelletAt_agree_with_grids gsW 2 2).2 (by decide) (by decide)
      (by decide) (by decide)).1⟩

/-- Witness for C3: a no-op at an empty cell, and the cleared bit after a
real collection. -/
theorem collectPellet_no_pellet_noop_witness :
    collectPellet gsW 5 5 = (gsW.numPellets, gsW) ∧
    pelletAt (collectPellet gsW 3 1).2 3 1 = false :=
  ⟨(collectPellet_no_pellet_noop gsW 5 5).1 (by decide),
   ((collectPellet_no_pellet_noop gsW 3 1).2 (by decide)).1⟩

/-- C4: collecting the pellet at (3, 1) frightens every ghost for the fright
duration, traps each currently-untrapped ghost for one cycle, leaves
already-trapped ghosts' trapped counters unchanged, and awards the
super-pellet score (which differs from the normal pellet score); the
super-pellet cells are exactly rows {3, 23} × columns {1, 26}. -/
theorem collectPellet_super_spec (gs : GameState) (h : pelletAt gs 3 1 = true) :
    (∀ i, i < gs.ghosts.length →
      ((collectPellet gs 3 1).2.ghosts.getD i dGhost).frightCycles = ghostFrightCycles ∧
      ((gs.ghosts.getD i dGhost).trappedCycles = 0 →
        ((collectPellet gs 3 1).2.ghosts.getD i dGhost).trappedCycles = 1) ∧
      (0 < (gs.ghosts.getD i dGhost).trappedCycles →
        ((collectPellet gs 3 1).2.ghosts.getD i dGhost).trappedCycles =
          (gs.ghosts.getD i dGhost).trappedCycles)) ∧
    (collectPellet gs 3 1).2.score = (gs.score + superPelletPoints) % 65536 ∧
    superPelletPoints ≠ pelletPoints ∧
    (∀ r c : Int, superPelletAt r c = true ↔ ((r = 3 ∨ r = 23) ∧ (c = 1 ∨ c = 26))) := by
  have hsp : superPelletAt 3 1 = true := by decide
  have hstate := (collectPellet_success_state h).1
  have hgh : (collectPellet gs 3 1).2.ghosts = gs.ghosts.map frightenGhost := by
    rw [hstate]
    simp [hsp]
  have hsc : (collectPellet gs 3 1).2.score = (gs.score + superPelletPoints) % 65536 := by
    rw [hstate]
    simp [hsp]
  refine ⟨fun i hi => ?_, hsc, by decide, fun r c => ?_⟩
  · rw [hgh, getD_map _ _ _ _ hi]
    refine ⟨rfl, fun h0 => ?_, fun hpos => ?_⟩
    · show (if decide (0 < (gs.ghosts.getD i dGhost).trappedCycles)
            then (gs.ghosts.getD i dGhost).trappedCycles else 1) = 1
      rw [h0]
      decide
    · show (if decide (0 < (gs.ghosts.getD i dGhost).trappedCycles)
            then (gs.ghosts.getD i dGhost).trappedCycles else 1) =
          (gs.ghosts.getD i dGhost).trappedCycles
      rw [if_pos (by simpa using hpos)]
  · simp [superPelletAt]

/-- Sample state for C4 and C2 witnesses: pellet at (3, 1), one untrapped
and one trapped ghost. -/
def gsSuper : GameState := { gsW with ghosts := [dGhost, gTrap] }

/-- Witness for C4 on a concrete state with an untrapped and a trapped
ghost. -/
theorem collectPellet_super_spec_witness :
    ((collectPellet gsSuper 3 1).2.ghosts.getD 0 dGhost).frightCycles = ghostFrightCycles ∧
    ((collectPellet gsSuper 3 1).2.ghosts.getD 0 dGhost).trappedCycles = 1 ∧
    ((collectPellet gsSuper 3 1).2.ghosts.getD 1 dGhost).trappedCycles =
      (gsSuper.ghosts.getD 1 dGhost).trappedCycles ∧
    (collectPellet gsSuper 3 1).2.score = (gsSuper.score + superPelletPoints) % 65536 :=
  have h := collectPellet_super_spec gsSuper (by decide)
  ⟨(h.1 0 (by decide)).1, (h.1 0 (by decide)).2.1 (by decide),
   (h.1 1 (by decide)).2.2 (by decide), h.2.1⟩

/-- C2: if `numPellets` equals the population count of the pellet grid then
it still does after any collectPellet call; a successful collection clears
exactly the collected cell's bit and decreases `numPellets` by exactly one,
and the counter never wraps below zero (it is at least one whenever a
collection succeeds). -/
theorem collectPellet_popcount_invariant (gs : GameState) (r c : Int)
    (hinv : gs.numPellets = gridPopCount gs.pellets) :
    (collectPellet gs r c).2.numPellets = gridPopCount (collectPellet gs r c).2.pellets ∧
    (pelletAt gs r c = true →
      1 ≤ gs.numPellets ∧
      (collectPellet gs r c).2.numPellets + 1 = gs.numPellets ∧
      pelletAt (collectPellet gs r c).2 r c = false ∧
      (∀ r2 c2 : Int, ¬(r2 = r ∧ c2 = c) →
        pelletAt (collectPellet gs r c).2 r2 c2 = pelletAt gs r2 c2)) := by
  by_cases hp : pelletAt gs r c
  · obtain ⟨hb, hbit, hlen⟩ := pelletAt_true_elim hp
    obtain ⟨hr0, hr1, hc0, hc1⟩ := inBounds_elim hb
    have hc32 : c.toNat < 32 := by omega
    have hrowpos : 1 ≤ rowPopCount (gridRow gs.pellets r.toNat) :=
      popCountBelow_pos _ _ hbit 32 hc32
    have hpos : 1 ≤ gs.numPellets := by
      have := gridPopCount_ge_row gs.pellets r.toNat hlen
      omega
    have hstate := (collectPellet_success_state hp).1
    have hpel : (collectPellet gs r c).2.pellets =
        gs.pellets.set r.toNat (modifyBit (gridRow gs.pellets r.toNat) c false) := by
      rw [hstate]
    have hclear := rowPopCount_clear (gridRow gs.pellets r.toNat) c.toNat hc32 hbit
    have hset := gridPopCount_set gs.pellets r.toNat
      (modifyBit (gridRow gs.pellets r.toNat) c false) hlen
    have hnum : (collectPellet gs r c).2.numPellets = gs.numPellets - 1 := by
      rw [hstate]
      simp only [if_neg (show ¬gs.numPellets = 0 by omega)]
    have hgrid : gridPopCount (collectPellet gs r c).2.pellets + 1 =
        gridPopCount gs.pellets := by
      rw [hpel]
      rw [modifyBit_false_eq] at hset ⊢
      omega
    refine ⟨by omega, fun _ => ⟨hpos, by omega, pelletAt_collect_self hp, ?_⟩⟩
    intro r2 c2 hne
    by_cases hb2 : inBounds r2 c2
    · have hform : ∀ gsx : GameState, pelletAt gsx r2 c2 =
          getBit (gridRow gsx.pellets r2.toNat) c2 := by
        intro gsx
        unfold pelletAt
        rw [hb2]
        rfl
      obtain ⟨hs0, hs1, hs2, hs3⟩ := inBounds_elim hb2
      rw [hform, hform, hpel]
      by_cases hrr : r2.toNat = r.toNat
      · have hr2r : r2 = r := by omega
        have hc2c : c2 ≠ c := fun hcc => hne ⟨hr2r, hcc⟩
        have hcc2 : c.toNat ≠ c2.toNat := by omega
        have hc232 : c2.toNat < 32 := by omega
        rw [hrr, gridRow_set_self _ _ _ hlen, modifyBit_false_eq]
        unfold getBit
        rw [testBit_clear_other _ _ _ hcc2 hc232]
      · rw [gridRow_set_ne _ _ _ _ (fun hx => hrr hx.symm)]
    · have hform : ∀ gsx : GameState, pelletAt gsx r2 c2 = false := by
        intro gsx
        unfold pelletAt
        simp [hb2]
      rw [hform, hform]
  · have hpf : pelletAt gs r c = false := by
      revert hp
      cases pelletAt gs r c <;> simp
    rw [collectPellet_noop hpf]
    exact ⟨hinv, fun ht => absurd ht (by simp [hpf])⟩

/-- Witness for C2 on a concrete state whose counter matches the grid
popcount. -/
theorem collectPellet_popcount_invariant_witness :
    (collectPellet gsW 3 1).2.numPellets =
      gridPopCount (collectPellet gsW 3 1).2.pellets ∧
    (collectPellet gsW 3 1).2.numPellets + 1 = gsW.numPellets :=
  have h := collectPellet_popcount_invariant gsW 3 1 (by decide)
  ⟨h.1, (h.2 (by decide)).2.1⟩

lemma wrap8_eq_self {x : Int} (h1 : -128 ≤ x) (h2 : x ≤ 127) : wrap8 x = x := by
  unfold wrap8
  omega

lemma wrap8_eq_sub {x : Int} (h1 : 128 ≤ x) (h2 : x ≤ 255) : wrap8 x = x - 256 := by
  unfold wrap8
  omega

lemma wrap8_eq_add {x : Int} (h1 : -255 ≤ x) (h2 : x ≤ -129) : wrap8 x = x + 256 := by
  unfold wrap8
  omega

/-- For a difference of `int8` values, the wrapped square never exceeds the
true square, with equality exactly on `[-128, 128]`. -/
lemma sq_wrap8_le {d : Int} (h1 : -255 ≤ d) (h2 : d ≤ 255) :
    wrap8 d * wrap8 d ≤ d * d ∧
      (wrap8 d * wrap8 d = d * d ↔ (-128 ≤ d ∧ d ≤ 128)) := by
  rcases le_or_lt d 127 with hd1 | hd1
  · rcases le_or_lt (-128) d with hd2 | hd2
    · rw [wrap8_eq_self hd2 hd1]
      exact ⟨le_rfl, by constructor <;> intro <;> [exact ⟨hd2, by omega⟩; rfl]⟩
    · rw [wrap8_eq_add h1 (by omega)]
      have hexp : (d + 256) * (d + 256) = d * d + 512 * d + 65536 := by ring
      rw [hexp]
      constructor
      · nlinarith
      · constructor
        · intro he
          exfalso
          nlinarith
        · intro he
          omega
  · rw [wrap8_eq_sub (by omega) h2]
    have hexp : (d - 256) * (d - 256) = d * d - 512 * d + 65536 := by ring
    rw [hexp]
    constructor
    · nlinarith
    · constructor
      · intro he
        constructor <;> nlinarith
      · intro he
        have hd128 : d = 128 := by omega
        rw [hd128]
        ring

/-- C10 counterexample: all four inputs are valid `int8` values, the row
difference 128 lies outside `[-128, 127]`, yet `distSq` still equals the
true squared Euclidean distance (128 wraps to -128, whose square is the
same), so "wraps otherwise" fails at the boundary. -/
theorem distSq_boundary_counterexample :
    distSq (-128) 0 0 0 = 16384 ∧
    ((0 : Int) - (-128)) * ((0 : Int) - (-128)) + ((0 : Int) - 0) * ((0 : Int) - 0) = 16384 ∧
    ¬((0 : Int) - (-128) ≤ 127) ∧
    (-128 ≤ (-128 : Int) ∧ (-128 : Int) ≤ 127 ∧ -128 ≤ (0 : Int) ∧ (0 : Int) ≤ 127) := by
  refine ⟨by decide, by norm_num, by norm_num, by norm_num⟩

/-- C10 (amended): distSq computes the coordinate differences in 8-bit
signed arithmetic before widening — it returns the sum of squares of the
`int8`-wrapped differences (each wrapped value is the difference reduced
mod 2^8 into `[-128, 127]`) — and for `int8` inputs it equals the true
squared Euclidean distance exactly when both differences lie in
`[-128, 128]`: at a difference of exactly 128 the wrap to -128 leaves the
square unchanged, and in all other out-of-range cases it wraps. -/
theorem distSq_int8_wrap_spec (r1 c1 r2 c2 : Int)
    (hr1a : -128 ≤ r1) (hr1b : r1 ≤ 127) (hc1a : -128 ≤ c1) (hc1b : c1 ≤ 127)
    (hr2a : -128 ≤ r2) (hr2b : r2 ≤ 127) (hc2a : -128 ≤ c2) (hc2b : c2 ≤ 127) :
    distSq r1 c1 r2 c2 =
      wrap8 (r2 - r1) * wrap8 (r2 - r1) + wrap8 (c2 - c1) * wrap8 (c2 - c1) ∧
    (∀ x : Int, -128 ≤ wrap8 x ∧ wrap8 x ≤ 127 ∧ (wrap8 x - x) % 256 = 0) ∧
    (distSq r1 c1 r2 c2 = (r2 - r1) * (r2 - r1) + (c2 - c1) * (c2 - c1) ↔
      (-128 ≤ r2 - r1 ∧ r2 - r1 ≤ 128 ∧ -128 ≤ c2 - c1 ∧ c2 - c1 ≤ 128)) := by
  obtain ⟨hle1, hiff1⟩ := sq_wrap8_le (d := r2 - r1) (by omega) (by omega)
  obtain ⟨hle2, hiff2⟩ := sq_wrap8_le (d := c2 - c1) (by omega) (by omega)
  refine ⟨rfl, fun x => by unfold wrap8; omega, ?_⟩
  simp only [distSq]
  constructor
  · intro he
    have e1 : wrap8 (r2 - r1) * wrap8 (r2 - r1) = (r2 - r1) * (r2 - r1) := by
      linarith
    have e2 : wrap8 (c2 - c1) * wrap8 (c2 - c1) = (c2 - c1) * (c2 - c1) := by
      linarith
    obtain ⟨q1, q2⟩ := hiff1.mp e1
    obtain ⟨q3, q4⟩ := hiff2.mp e2
    exact ⟨q1, q2, q3, q4⟩
  · intro hr
    rw [hiff1.mpr ⟨hr.1, hr.2.1⟩, hiff2.mpr ⟨hr.2.2.1, hr.2.2.2⟩]

lemma randomSelectAux_mem (valid : Nat → Bool) :
    ∀ (l : List Nat) (count randomNum : Nat),
      count ≤ randomNum → randomNum < count + l.countP valid →
      ∃ d, randomSelectAux valid randomNum l count = some d ∧ valid d = true := by
  intro l
  induction l with
  | nil =>
    intro count rn h1 h2
    simp [List.countP_nil] at h2
    omega
  | cons d ds ih =>
    intro count rn h1 h2
    by_cases hv : valid d
    · by_cases hc : count = rn
      · exact ⟨d, by simp [randomSelectAux, hv, hc], hv⟩
      · have hcount : (d :: ds).countP valid = ds.countP valid + 1 := by
          simp [List.countP_cons, hv]
        obtain ⟨e, he, hve⟩ := ih (count + 1) rn (by omega) (by omega)
        refine ⟨e, ?_, hve⟩
        simp [randomSelectAux, hv, hc, he]
    · have hcount : (d :: ds).countP valid = ds.countP valid := by
        simp [List.countP_cons, hv]
      obtain ⟨e, he, hve⟩ := ih count rn h1 (by omega)
      refine ⟨e, ?_, hve⟩
      simp [randomSelectAux, hv, he]

lemma exists_valid_of_countP_pos (p : Nat → Bool)
    (h : 0 < (List.range 4).countP p) : ∃ d, d < 4 ∧ p d = true := by
  by_contra hno
  push_neg at hno
  have e0 : p 0 = false := by have h0 := hno 0 (by omega); revert h0; cases p 0 <;> simp
  have e1 : p 1 = false := by have h0 := hno 1 (by omega); revert h0; cases p 1 <;> simp
  have e2 : p 2 = false := by have h0 := hno 2 (by omega); revert h0; cases p 2 <;> simp
  have e3 : p 3 = false := by have h0 := hno 3 (by omega); revert h0; cases p 3 <;> simp
  rw [show List.range 4 = [0, 1, 2, 3] from rfl] at h
  simp [List.countP_cons, List.countP_nil, e0, e1, e2, e3] at h

lemma wrap8_bounds (x : Int) : -128 ≤ wrap8 x ∧ wrap8 x ≤ 127 := by
  unfold wrap8
  omega

lemma distSq_lt_big (a b c d : Int) : distSq a b c d < 4294967295 := by
  have h1 := wrap8_bounds (c - a)
  have h2 := wrap8_bounds (d - b)
  simp only [distSq]
  nlinarith [h1.1, h1.2, h2.1, h2.2]

/-- The greedy loop picks a valid direction of minimal distance, breaking
ties toward the lowest-numbered direction. -/
lemma greedyChoice_spec (valid : Nat → Bool) (dist : Nat → Int)
    (hb : ∀ d, d < 4 → dist d < 4294967295)
    (hv : ∃ d, d < 4 ∧ valid d = true) :
    greedyChoice valid dist < 4 ∧ valid (greedyChoice valid dist) = true ∧
    ∀ e, e < 4 → valid e = true →
      dist (greedyChoice valid dist) < dist e ∨
        (dist (greedyChoice valid dist) = dist e ∧ greedyChoice valid dist ≤ e) := by
  have hs : ∀ d, d < 4 → (valid d && decide (dist d < 4294967295)) = valid d := by
    intro d hd
    cases hvd : valid d <;> simp [hvd, hb d hd]
  obtain ⟨w, hw4, hwv⟩ := hv
  simp only [greedyChoice]
  rw [show List.range 4 = [0, 1, 2, 3] from rfl]
  simp only [greedyAux, up, hs 0 (by omega), hs 1 (by omega), hs 2 (by omega),
             hs 3 (by omega)]
  split_ifs <;>
    first
      | (exfalso; (interval_cases w <;> simp_all); done)
      | (refine ⟨by omega, by simp_all, ?_⟩
         intro e he hve
         interval_cases e <;> simp_all <;> omega)

/-- Witness for the amended C10 at in-range differences. -/
theorem distSq_int8_wrap_spec_witness :
    distSq 0 0 3 4 = ((3 : Int) - 0) * ((3 : Int) - 0) + ((4 : Int) - 0) * ((4 : Int) - 0) :=
  ((distSq_int8_wrap_spec 0 0 3 4 (by norm_num) (by norm_num) (by norm_num)
      (by norm_num) (by norm_num) (by norm_num) (by norm_num) (by norm_num)).2.2).mpr
    (by norm_num)

/-- C7: outside the random-fright branch (fright at most 1, not trapped, on
the board) with at least one valid candidate, plan is deterministic — the
drawn random number is never consulted — and it updates the planned heading
to the valid direction of minimal squared distance to the target, ties
resolved to the lowest-numbered direction of the fixed enumeration. -/
theorem plan_greedy_deterministic (gs : GameState) (g : Ghost)
    (h1 : g.loc.collidesWith emptyLoc = false) (h2 : g.trappedCycles = 0)
    (h3 : g.frightCycles ≤ 1) (h4 : 0 < planNumValid gs g) :
    (∀ r1 r2, plan gs g r1 = plan gs g r2) ∧
    (∀ randomNum, plan gs g randomNum =
      { g with nextLoc :=
          (planCoast g).updateDir (greedyChoice (planMoveValid gs g) (planMoveDistSq gs g)) }) ∧
    planMoveValid gs g (greedyChoice (planMoveValid gs g) (planMoveDistSq gs g)) = true ∧
    (∀ e, e < 4 → planMoveValid gs g e = true →
      planMoveDistSq gs g (greedyChoice (planMoveValid gs g) (planMoveDistSq gs g)) <
          planMoveDistSq gs g e ∨
        (planMoveDistSq gs g (greedyChoice (planMoveValid gs g) (planMoveDistSq gs g)) =
            planMoveDistSq gs g e ∧
          greedyChoice (planMoveValid gs g) (planMoveDistSq gs g) ≤ e)) := by
  have hb : ∀ d, d < 4 → planMoveDistSq gs g d < 4294967295 := by
    intro d hd
    simp only [planMoveDistSq]
    exact distSq_lt_big _ _ _ _
  have hv : ∃ d, d < 4 ∧ planMoveValid gs g d = true :=
    exists_valid_of_countP_pos _ h4
  obtain ⟨hc1, hc2, hc3⟩ := greedyChoice_spec _ _ hb hv
  have hplan : ∀ randomNum, plan gs g randomNum =
      { g with nextLoc :=
          (planCoast g).updateDir (greedyChoice (planMoveValid gs g) (planMoveDistSq gs g)) } := by
    intro rn
    have e2 : decide (0 < g.trappedCycles) = false := by simp [h2]
    have e3 : (planNumValid gs g == 0) = false := by
      rw [beq_eq_false_iff_ne]
      omega
    have e4 : decide (1 < g.frightCycles) = false := by
      simp
      omega
    simp [plan, h1, e2, e3, e4]
  exact ⟨fun r1 r2 => (hplan r1).trans (hplan r2).symm, hplan, hc2, hc3⟩

/-- C8: in the random-fright branch (fright strictly above 1, not trapped,
on the board, at least one valid move, random draw below the valid count),
the direction reversing the planned heading is excluded from the candidate
set, so plan never selects it. -/
theorem plan_fright_no_reversal (gs : GameState) (g : Ghost)
    (h1 : g.loc.collidesWith emptyLoc = false) (h2 : g.trappedCycles = 0)
    (h3 : 1 < g.frightCycles) (h4 : 0 < planNumValid gs g)
    (randomNum : Nat) (h5 : randomNum < planNumValid gs g) :
    planMoveValid gs g ((planCoast g).getReversedDir) = false ∧
    (plan gs g randomNum).nextLoc.dir ≠ (planCoast g).getReversedDir := by
  have hrev : planMoveValid gs g ((planCoast g).getReversedDir) = false := by
    unfold planMoveValid
    simp
  obtain ⟨d, hd, hdv⟩ := randomSelectAux_mem (planMoveValid gs g) (List.range 4) 0
    randomNum (by omega) (by simpa [planNumValid] using h5)
  have e2 : decide (0 < g.trappedCycles) = false := by simp [h2]
  have e3 : (planNumValid gs g == 0) = false := by
    rw [beq_eq_false_iff_ne]
    omega
  have e4 : decide (1 < g.frightCycles) = true := by simp [h3]
  have hplan : plan gs g randomNum = { g with nextLoc := (planCoast g).updateDir d } := by
    simp [plan, h1, e2, e3, e4, hd]
  refine ⟨hrev, ?_⟩
  rw [hplan]
  intro hcontra
  have hvalid : planMoveValid gs g ((planCoast g).getReversedDir) = true := by
    rw [← hcontra]
    exact hdv
  rw [hrev] at hvalid
  exact Bool.false_ne_true hvalid

/-- Sample ghost used by C7 and C8 witnesses: on the board, untrapped,
heading right with two valid candidate directions on `gsW`. -/
def gPlan : Ghost := { dGhost with loc := ⟨1, 1, 3⟩, nextLoc := ⟨1, 1, 3⟩ }

/-- Witness for C7 on a concrete state: two different random draws give the
same plan, and the chosen direction is valid. -/
theorem plan_greedy_deterministic_witness :
    plan gsW gPlan 0 = plan gsW gPlan 5 ∧
    planMoveValid gsW gPlan
      (greedyChoice (planMoveValid gsW gPlan) (planMoveDistSq gsW gPlan)) = true :=
  have h := plan_greedy_deterministic gsW gPlan (by decide) (by decide) (by decide)
    (by decide)
  ⟨h.1 0 5, h.2.2.1⟩

/-- Sample frightened ghost used by the C8 witness. -/
def gFright : Ghost := { gPlan with frightCycles := 5 }

/-- Ghost used in the C1 scenario: frightened, not eaten, adjacent to the
player at (1, 2). -/
def gC1 : Ghost := { dGhost with loc := ⟨1, 2, 0⟩, frightCycles := 1 }

/-- State for the C1 scenario: the player at (1, 1) faces right, the
frightened ghost stands one cell to the right, the destination has neither
wall nor pellet. -/
def gsC1 : GameState :=
  { walls := [0, 0, 4], pellets := [], numPellets := 5, score := 7,
    pacmanLoc := ⟨1, 1, 3⟩, ghosts := [gC1], fruitSpawned1 := false,
    fruitSpawned2 := false, mode := Mode.chase, lastUnpausedMode := Mode.chase }

/-- C1 counterexample: in the claimed scenario — player adjacent to a
frightened, non-eaten ghost, no wall blocking — the movePacmanDir call does
move the player onto the ghost's cell, yet the ghost is NOT eaten, not
spawning, and the score is unchanged, because checkCollisions runs at the
player's pre-move cell and no ghost-eat points exist in the code. -/
theorem movePacman_adjacent_ghost_counterexample :
    gsC1.pacmanLoc.getNeighborCoords 3 = (1, 2) ∧
    (gsC1.ghosts.getD 0 dGhost).loc.getCoords = (1, 2) ∧
    0 < (gsC1.ghosts.getD 0 dGhost).frightCycles ∧
    (gsC1.ghosts.getD 0 dGhost).eaten = false ∧
    wallAt gsC1 1 2 = false ∧
    (movePacmanDir gsC1 3).pacmanLoc.getCoords = (1, 2) ∧
    ((movePacmanDir gsC1 3).ghosts.getD 0 dGhost).eaten = false ∧
    ((movePacmanDir gsC1 3).ghosts.getD 0 dGhost).spawning = false ∧
    (movePacmanDir gsC1 3).score = gsC1.score := by
  decide

lemma frightenGhost_fields (g : Ghost) :
    (frightenGhost g).eaten = g.eaten ∧ (frightenGhost g).spawning = g.spawning ∧
      (frightenGhost g).nextLoc = g.nextLoc ∧ (frightenGhost g).color = g.color :=
  ⟨rfl, rfl, rfl, rfl⟩

/-- collectPellet leaves the ghost list alone or frightens every ghost. -/
lemma collectPellet_ghosts_shape (gs : GameState) (r c : Int) :
    (collectPellet gs r c).2.ghosts = gs.ghosts ∨
    (collectPellet gs r c).2.ghosts = gs.ghosts.map frightenGhost := by
  by_cases hp : pelletAt gs r c
  · have h := (collectPellet_success_state hp).1
    by_cases hsp : superPelletAt r c
    · right
      rw [h]
      simp [hsp]
    · left
      rw [h]
      simp [hsp]
  · left
    have hpf : pelletAt gs r c = false := by
      revert hp
      cases pelletAt gs r c <;> simp
    rw [collectPellet_noop hpf]

/-- The ghost list produced by movePacmanDir is the collision-resolved list,
possibly frightened by a collected super pellet afterwards. -/
lemma movePacman_ghosts_shape (gs : GameState) (dir : Nat) :
    (movePacmanDir gs dir).ghosts =
      (checkCollisions { gs with pacmanLoc := gs.pacmanLoc.updateDir dir }).ghosts ∨
    (movePacmanDir gs dir).ghosts =
      (checkCollisions { gs with pacmanLoc := gs.pacmanLoc.updateDir dir }).ghosts.map
        frightenGhost := by
  unfold movePacmanDir
  set gs1 := { gs with pacmanLoc := gs.pacmanLoc.updateDir dir } with hgs1
  set nb := gs.pacmanLoc.getNeighborCoords dir with hnb
  by_cases hw : wallAt (checkCollisions gs1) nb.1 nb.2
  · left
    simp only [hw, if_pos rfl, if_true]
  · simp only [hw, Bool.false_eq_true, if_false]
    set gs3 := { checkCollisions gs1 with
      pacmanLoc := (checkCollisions gs1).pacmanLoc.moveToCoords nb.1 nb.2 } with hgs3
    have hg3 : gs3.ghosts = (checkCollisions gs1).ghosts := rfl
    have hshape := collectPellet_ghosts_shape gs3 nb.1 nb.2
    have hfr : ∀ gsx : GameState,
        (if ((collectPellet gs3 nb.1 nb.2).1 == fruitThreshold1) && !gsx.fruitSpawned1
         then { gsx with fruitSpawned1 := true }
         else if ((collectPellet gs3 nb.1 nb.2).1 == fruitThreshold2) && !gsx.fruitSpawned2
         then { gsx with fruitSpawned2 := true }
         else gsx).ghosts = gsx.ghosts := by
      intro gsx
      split_ifs <;> rfl
    rw [hfr]
    rw [hg3] at hshape
    exact hshape

/-- C1 (amended): collision resolution runs before the player's move, at
the player's pre-move cell — a frightened, non-eaten ghost standing on the
player's current cell when movePacmanDir is called transitions to
`eaten = true` and `spawning = true` with its next location set to its
ghost-house spawn cell (pink's spawn cell in the case of red), wall or no
wall; moving onto an adjacent ghost's cell does not eat it during that
call, and no score is awarded for eating a ghost. -/
theorem movePacman_collision_premove_spec (gs : GameState) (dir : Nat) (i : Nat)
    (hi : i < gs.ghosts.length)
    (hc : gs.pacmanLoc.collidesWith (gs.ghosts.getD i dGhost).loc = true)
    (he : (gs.ghosts.getD i dGhost).eaten = false)
    (hf : 0 < (gs.ghosts.getD i dGhost).frightCycles) :
    ((movePacmanDir gs dir).ghosts.getD i dGhost).eaten = true ∧
    ((movePacmanDir gs dir).ghosts.getD i dGhost).spawning = true ∧
    ((movePacmanDir gs dir).ghosts.getD i dGhost).nextLoc =
      (if (gs.ghosts.getD i dGhost).color == red then ghostSpawnLocs pink
       else ghostSpawnLocs (gs.ghosts.getD i dGhost).color) := by
  set g0 := gs.ghosts.getD i dGhost with hg0
  set gs1 := { gs with pacmanLoc := gs.pacmanLoc.updateDir dir } with hgs1
  have hcg : (checkCollisions gs1).ghosts = gs.ghosts.map (fun g =>
      if gs1.pacmanLoc.collidesWith g.loc then
        if g.eaten then g
        else if decide (0 < g.frightCycles) then respawn g
        else g
      else g) := rfl
  have hcgi : (checkCollisions gs1).ghosts.getD i dGhost = respawn g0 := by
    rw [hcg, getD_map _ _ _ _ hi]
    have hc1 : gs1.pacmanLoc.collidesWith g0.loc = true := hc
    show (if gs1.pacmanLoc.collidesWith g0.loc then
            if g0.eaten then g0
            else if decide (0 < g0.frightCycles) then respawn g0 else g0
          else g0) = respawn g0
    rw [if_pos hc1, if_neg (by simp [he]), if_pos (by simpa using hf)]
  have hlen : i < (checkCollisions gs1).ghosts.length := by
    rw [hcg]
    simpa using hi
  rcases movePacman_ghosts_shape gs dir with hsh | hsh <;> rw [hsh]
  · rw [hcgi]
    exact ⟨rfl, rfl, rfl⟩
  · rw [getD_map _ _ _ _ hlen, hcgi]
    exact ⟨rfl, rfl, rfl⟩

/-- State for the amended C1 witness: the frightened ghost already stands
on the player's cell. -/
def gsC1b : GameState := { gsC1 with ghosts := [{ gC1 with loc := ⟨1, 1, 0⟩ }] }

/-- Witness for the amended C1 on a concrete state. -/
theorem movePacman_collision_premove_spec_witness :
    ((movePacmanDir gsC1b 3).ghosts.getD 0 dGhost).eaten = true ∧
    ((movePacmanDir gsC1b 3).ghosts.getD 0 dGhost).spawning = true ∧
    ((movePacmanDir gsC1b 3).ghosts.getD 0 dGhost).nextLoc =
      (if (gsC1b.ghosts.getD 0 dGhost).color == red then ghostSpawnLocs pink
       else ghostSpawnLocs (gsC1b.ghosts.getD 0 dGhost).color) :=
  movePacman_collision_premove_spec gsC1b 3 0 (by decide) (by decide) (by decide)
    (by decide)

/-- Witness for C8 on a concrete frightened ghost. -/
theorem plan_fright_no_reversal_witness :
    (plan gsW gFright 0).nextLoc.dir ≠ (planCoast gFright).getReversedDir :=
  (plan_fright_no_reversal gsW gFright (by decide) (by decide) (by decide) (by decide)
    0 (by decide)).2

end Pacbot
